import Mathlib

/-
Verification of `src/trio/_highlevel_generic.py`.

The file has two parts:

* A shallow embedding of the delegation layer.  A Python coroutine over a
  heap `σ` is modelled as a function `σ → Except PyErr α × σ`: it either
  returns a value or raises an exception, and it may update the heap.  The
  two stream halves of a `StapledStream` are records of such coroutines, and
  each `StapledStream` method is translated statement by statement from the
  Python source (including the `try`/`finally` in `aclose`, with Python's
  implicit-context exception chaining).

* A small operational model of trio cancel scopes for `aclose_forcefully`:
  a coroutine body is a `Prog`, a sequence of synchronous segments separated
  by checkpoints; running it under a `CancelCtx` delivers a `Cancelled`
  exception at the first checkpoint reached inside a cancelled scope, on
  behalf of the outermost cancelled scope, as trio's scheduler does.
-/

namespace Trio

/-- Python byte strings, modelled as lists of byte values. -/
abbrev ByteSeq := List Nat

/-- The kinds of Python exceptions that occur at this layer: the three
exception classes defined in the module, trio's `Cancelled` (tagged with the
id of the cancel scope it was delivered for), and a stand-in for any other
exception an underlying stream might raise. -/
inductive ExcKind where
  | BrokenStreamError
  | ClosedStreamError
  | ClosedListenerError
  | Cancelled (scope : Nat)
  | OtherError (code : Nat)
deriving DecidableEq, Repr

/-- A raised Python exception: its kind together with the kinds of the
exceptions reachable through its implicit `__context__` chain. -/
structure PyErr where
  kind : ExcKind
  context : List ExcKind
deriving DecidableEq, Repr

/-- An exception freshly raised, with no context chain. -/
def PyErr.ofKind (k : ExcKind) : PyErr := ⟨k, []⟩

/-- Python's implicit exception chaining: when `e2` is raised while `e1` is
being handled (for example from inside a `finally` block entered because of
`e1`), the interpreter sets `e2.__context__ = e1`. -/
def PyErr.chain (e2 e1 : PyErr) : PyErr :=
  ⟨e2.kind, e2.context ++ e1.kind :: e1.context⟩

/-- A Python coroutine over heap `σ` returning `α`: it raises or returns,
and may update the heap.  (Cancellation plays no role in the pure
delegation methods; the `Prog` model below handles it for
`aclose_forcefully`.) -/
abbrev M (σ α : Type) := σ → Except PyErr α × σ

/-- The operations of a `trio.abc.SendStream`-shaped object, as used by
`StapledStream`.  `send_eof` is `none` when `hasattr(obj, "send_eof")` is
false. -/
structure SendStream (σ : Type) where
  send_all : ByteSeq → M σ Unit
  wait_send_all_might_not_block : M σ Unit
  send_eof : Option (M σ Unit)
  aclose : M σ Unit

/-- The operations of a `trio.abc.ReceiveStream`-shaped object, as used by
`StapledStream`.  Python places no type constraint on `max_bytes` at this
layer, so it is modelled as an arbitrary integer. -/
structure ReceiveStream (σ : Type) where
  receive_some : Int → M σ ByteSeq
  aclose : M σ Unit

/-- `StapledStream` is declared with `attr.s(slots=True, ...)` and exactly
two `attr.ib()` fields, `send_stream` and `receive_stream`; `slots=True`
means no further attributes can exist on an instance. -/
structure StapledStream (σ : Type) where
  send_stream : SendStream σ
  receive_stream : ReceiveStream σ

/-- Result of calling a `StapledStream` method: the returned value or raised
exception, the updated heap, and the object itself after the call (returned
explicitly so that it is statable that no method rebinds the object's
fields). -/
abbrev SResult (σ α : Type) := Except PyErr α × σ × StapledStream σ

/-- `async def send_all(self, data): return await self.send_stream.send_all(data)` -/
def StapledStream.send_all (self : StapledStream σ) (data : ByteSeq) :
    σ → SResult σ Unit := fun s =>
  let (r, s1) := self.send_stream.send_all data s
  (r, s1, self)

/-- `async def wait_send_all_might_not_block(self): return await self.send_stream.wait_send_all_might_not_block()` -/
def StapledStream.wait_send_all_might_not_block (self : StapledStream σ) :
    σ → SResult σ Unit := fun s =>
  let (r, s1) := self.send_stream.wait_send_all_might_not_block s
  (r, s1, self)

/-- `async def send_eof(self)`: if `hasattr(self.send_stream, "send_eof")`
then `return await self.send_stream.send_eof()`, else
`return await self.send_stream.aclose()`. -/
def StapledStream.send_eof (self : StapledStream σ) :
    σ → SResult σ Unit := fun s =>
  match self.send_stream.send_eof with
  | some f =>
    let (r, s1) := f s
    (r, s1, self)
  | none =>
    let (r, s1) := self.send_stream.aclose s
    (r, s1, self)

/-- `async def receive_some(self, max_bytes): return await self.receive_stream.receive_some(max_bytes)` -/
def StapledStream.receive_some (self : StapledStream σ) (max_bytes : Int) :
    σ → SResult σ ByteSeq := fun s =>
  let (r, s1) := self.receive_stream.receive_some max_bytes s
  (r, s1, self)

/-- `async def aclose(self)`:
`try: await self.send_stream.aclose()`
`finally: await self.receive_stream.aclose()`.
Per Python semantics the `finally` block always runs; if it raises, its
exception propagates and the pending one (if any) becomes its implicit
`__context__`. -/
def StapledStream.aclose (self : StapledStream σ) :
    σ → SResult σ Unit := fun s =>
  let (r1, s1) := self.send_stream.aclose s
  let (r2, s2) := self.receive_stream.aclose s1
  let r : Except PyErr Unit :=
    match r2, r1 with
    | .error e2, .error e1 => .error (e2.chain e1)
    | .error e2, .ok _ => .error e2
    | .ok _, r1 => r1
  (r, s2, self)

/-- A trio cancellation context as seen by a running task: the ids of the
enclosing cancel scopes that are currently marked cancelled, outermost
first, plus a supply of fresh scope ids. -/
structure CancelCtx where
  cancelled : List Nat
  nextId : Nat
deriving DecidableEq, Repr

/-- A well-formed context: every already-allocated scope id is below the
fresh-id supply. -/
def CancelCtx.WF (ctx : CancelCtx) : Prop :=
  ∀ i ∈ ctx.cancelled, i < ctx.nextId

/-- The body of an `async` operation over heap `σ`, as trio's cooperative
scheduler sees it: synchronous segments separated by checkpoints.
`blockForever` is an operation that suspends waiting on a condition that is
never met (it can only be interrupted by cancellation). -/
inductive Prog (σ : Type) where
  | ret (r : Except PyErr Unit)
  | sync (f : σ → σ) (rest : Prog σ)
  | checkpointThen (rest : Prog σ)
  | blockForever

/-- A well-formed coroutine body never fabricates a `Cancelled` exception of
its own: `Cancelled` is only ever delivered by the scheduler at a
checkpoint. -/
def Prog.WF {σ : Type} : Prog σ → Prop
  | .ret (.error e) => ∀ j, e.kind ≠ .Cancelled j
  | .ret (.ok _) => True
  | .sync _ rest => rest.WF
  | .checkpointThen rest => rest.WF
  | .blockForever => True

/-- The outcome of driving an operation: it finished (with a return value or
exception, a final heap, and the number of checkpoints that contributed
scheduling delay), or it is blocked forever. -/
inductive Outcome (σ : Type) where
  | finished (r : Except PyErr Unit) (s : σ) (checkpoints : Nat)
  | blocked

/-- Add a checkpoint's worth of delay in front of an outcome. -/
def Outcome.bump {σ : Type} : Outcome σ → Outcome σ
  | .finished r s n => .finished r s (n + 1)
  | .blocked => .blocked

/-- Run a coroutine body under a cancellation context.  At each checkpoint
(including the suspension of `blockForever`), if some enclosing scope is
marked cancelled, the scheduler delivers a `Cancelled` exception on behalf
of the outermost cancelled scope. -/
def runProg {σ : Type} : Prog σ → CancelCtx → σ → Outcome σ
  | .ret r, _, s => .finished r s 0
  | .sync f rest, ctx, s => runProg rest ctx (f s)
  | .checkpointThen rest, ctx, s =>
    match ctx.cancelled with
    | [] => (runProg rest ctx s).bump
    | i :: _ => .finished (.error (PyErr.ofKind (.Cancelled i))) s 1
  | .blockForever, ctx, s =>
    match ctx.cancelled with
    | [] => .blocked
    | i :: _ => .finished (.error (PyErr.ofKind (.Cancelled i))) s 1

/-- `async def aclose_forcefully(resource)`:
`with _core.open_cancel_scope() as cs: cs.cancel(); await resource.aclose()`.
A fresh scope is opened and marked cancelled synchronously, before any
suspension; `resource.aclose()` then runs with that scope innermost.  On
exit the scope absorbs a `Cancelled` exception delivered on its own behalf
and propagates anything else. -/
def aclose_forcefully {σ : Type} (aclose : Prog σ) (ctx : CancelCtx) (s : σ) :
    Outcome σ :=
  let fresh := ctx.nextId
  let inner : CancelCtx := ⟨ctx.cancelled ++ [fresh], ctx.nextId + 1⟩
  match runProg aclose inner s with
  | .finished (.error e) s1 n =>
    if e.kind = .Cancelled fresh then .finished (.ok ()) s1 n
    else .finished (.error e) s1 n
  | out => out

/-- The cancellation-safety contract of `trio.abc.AsyncResource.aclose`: if
`aclose` is executed while cancellation is pending, then whenever it
finishes, the resource has nevertheless been released. -/
def HonorsCancellation {σ : Type} (aclose : Prog σ) (released : σ → Bool) : Prop :=
  ∀ ctx s r s1 n, ctx.cancelled ≠ [] →
    runProg aclose ctx s = .finished r s1 n → released s1 = true

/-- The Python classes relevant to the module's exception taxonomy. -/
inductive PyClass where
  | object
  | BaseException
  | Exception
  | BrokenStreamError
  | ClosedStreamError
  | ClosedListenerError
deriving DecidableEq, Repr

/-- The declared base of each class.  The module defines
`class BrokenStreamError(Exception)`, `class ClosedStreamError(Exception)`
and `class ClosedListenerError(Exception)`. -/
def pyBase : PyClass → Option PyClass
  | .object => none
  | .BaseException => some .object
  | .Exception => some .BaseException
  | .BrokenStreamError => some .Exception
  | .ClosedStreamError => some .Exception
  | .ClosedListenerError => some .Exception

/-- The chain of ancestors of a class (the class itself first), computed with
fuel; fuel 5 is enough for this finite hierarchy. -/
def ancestors : Nat → PyClass → List PyClass
  | 0, c => [c]
  | fuel + 1, c =>
    c :: (match pyBase c with
          | some b => ancestors fuel b
          | none => [])

/-- Python's `issubclass`, as used by `except` clauses. -/
def issubclass (c d : PyClass) : Bool := d ∈ ancestors 5 c

/-- An `except H:` clause catches a raised exception of class `e` exactly
when `e` is a subclass of `H`. -/
def catches (handler raised : PyClass) : Bool := issubclass raised handler

/-- A Python object: an identity plus its attribute values.  For
`StapledStream` the attribute values are references (object ids) to the
send half and to the receive half. -/
structure PyObject (α : Type) where
  objId : Nat
  value : α
deriving DecidableEq, Repr

/-- The `cmp` argument passed to `attr.s` for `StapledStream`. -/
def stapledCmpFlag : Bool := false

/-- The `hash` argument passed to `attr.s` for `StapledStream`. -/
def stapledHashFlag : Bool := false

/-- The `__eq__` attrs generates: with `cmp=True` it compares fields, with
`cmp=False` it is inherited from `object`, i.e. identity. -/
def attrsEq {α : Type} [DecidableEq α] (cmp : Bool) (a b : PyObject α) : Bool :=
  if cmp then a.value = b.value else a.objId = b.objId

/-- The `__hash__` attrs leaves in place: with `hash=True` it hashes the
fields, with `hash=False` (and `cmp=False`) it is inherited from `object`,
i.e. based on identity. -/
def attrsHash (hashFlag : Bool) (fieldHash idHash : Nat) : Nat :=
  if hashFlag then fieldHash else idHash

/-- Equality between `StapledStream` instances, whose attribute values are
the pair (send-half reference, receive-half reference). -/
def stapledStreamEq (a b : PyObject (Nat × Nat)) : Bool :=
  attrsEq stapledCmpFlag a b

/-- Hash of a `StapledStream` instance with field hash `fh` and identity
hash `ih`. -/
def stapledStreamHash (fh ih : Nat) : Nat := attrsHash stapledHashFlag fh ih

/-- The kind of the exception a method call raised, if any. -/
def raisedKind {α : Type} : Except PyErr α → Option ExcKind
  | .error e => some e.kind
  | .ok _ => none

/-- A send half whose `aclose` raises `BrokenStreamError` (and which lacks a
`send_eof` method); the other methods succeed without touching the heap. -/
def sendRaisesBroken : SendStream Unit :=
  { send_all := fun _ s => (.ok (), s)
    wait_send_all_might_not_block := fun s => (.ok (), s)
    send_eof := none
    aclose := fun s => (.error (PyErr.ofKind .BrokenStreamError), s) }

/-- A receive half whose `aclose` raises `ClosedStreamError`. -/
def recvRaisesClosed : ReceiveStream Unit :=
  { receive_some := fun _ s => (.ok [], s)
    aclose := fun s => (.error (PyErr.ofKind .ClosedStreamError), s) }

/-- A `StapledStream` both of whose halves fail to close. -/
def stapleBothFail : StapledStream Unit := ⟨sendRaisesBroken, recvRaisesClosed⟩

/-- Events observable on a shared heap while closing a `StapledStream`. -/
inductive CloseEvent where
  | sendClose
  | recvClose
deriving DecidableEq, Repr

/-- Instrument a coroutine so that each call appends an event to a log kept
alongside the original heap. -/
def withLog {σ : Type} (ev : CloseEvent) (f : M σ Unit) :
    M (σ × List CloseEvent) Unit := fun st =>
  let (r, s1) := f st.1
  (r, (s1, st.2 ++ [ev]))

/-- A `StapledStream` over a log-carrying heap whose halves' `aclose`
methods behave like the given coroutines `f` and `g` and additionally record
that they were called. -/
def loggedStaple {σ : Type} (f g : M σ Unit) :
    StapledStream (σ × List CloseEvent) :=
  { send_stream :=
      { send_all := fun _ st => (.ok (), st)
        wait_send_all_might_not_block := fun st => (.ok (), st)
        send_eof := none
        aclose := withLog .sendClose f }
    receive_stream :=
      { receive_some := fun _ st => (.ok [], st)
        aclose := withLog .recvClose g } }

/-- Run a coroutine on the first component of a product heap, leaving the
second component untouched. -/
def M.onFst {σ1 σ2 α : Type} (f : M σ1 α) : M (σ1 × σ2) α := fun ab =>
  let (r, a1) := f ab.1
  (r, (a1, ab.2))

/-- Run a coroutine on the second component of a product heap, leaving the
first component untouched. -/
def M.onSnd {σ1 σ2 α : Type} (f : M σ2 α) : M (σ1 × σ2) α := fun ab =>
  let (r, b1) := f ab.2
  (r, (ab.1, b1))

/-- A `StapledStream` whose two halves own disjoint parts of the heap: the
send half's methods act on the first component, the receive half's on the
second.  This realises the spec's picture of two independently-owned
unidirectional streams. -/
def splitStaple {σ1 σ2 : Type} (sh : SendStream σ1) (rh : ReceiveStream σ2) :
    StapledStream (σ1 × σ2) :=
  { send_stream :=
      { send_all := fun d => (sh.send_all d).onFst
        wait_send_all_might_not_block := sh.wait_send_all_might_not_block.onFst
        send_eof := sh.send_eof.map M.onFst
        aclose := sh.aclose.onFst }
    receive_stream :=
      { receive_some := fun m => (rh.receive_some m).onSnd
        aclose := rh.aclose.onSnd } }

/-- A send half like `sendRaisesBroken` but exposing a `send_eof` method
that succeeds without touching the heap. -/
def sendWithEof : SendStream Unit :=
  { sendRaisesBroken with send_eof := some fun s => (.ok (), s) }

/-- A staple whose send half exposes `send_eof`. -/
def stapleWithEof : StapledStream Unit := ⟨sendWithEof, recvRaisesClosed⟩

/-- Run a coroutine body on the second component of a product heap. -/
def Prog.onSnd {τ σ : Type} : Prog σ → Prog (τ × σ)
  | .ret r => .ret r
  | .sync f rest => .sync (fun ab => (ab.1, f ab.2)) rest.onSnd
  | .checkpointThen rest => .checkpointThen rest.onSnd
  | .blockForever => .blockForever

/-- Pair an outcome's final heap with an untouched first component. -/
def Outcome.withFst {τ σ : Type} (a : τ) : Outcome σ → Outcome (τ × σ)
  | .finished r s n => .finished r (a, s) n
  | .blocked => .blocked

/-- A call-counting wrapper: one synchronous increment of the counter kept
alongside the heap, then the wrapped body. -/
def countedCall {σ : Type} (p : Prog σ) : Prog (Nat × σ) :=
  .sync (fun ab => (ab.1 + 1, ab.2)) p.onSnd

/-- An `aclose` body that synchronously releases its resource (sets the
heap flag) and then suspends forever waiting on a condition that is never
met — the spec's example of a close that would otherwise block
indefinitely. -/
def releaseThenBlock : Prog Bool := .sync (fun _ => true) .blockForever

/-- C1 counterexample: on a `StapledStream` whose send half's `aclose`
raises `BrokenStreamError` and whose receive half's `aclose` raises
`ClosedStreamError`, `aclose` propagates the receive half's
`ClosedStreamError`, not the send half's error: the `try`/`finally`
lets the `finally` block's exception win. -/
theorem C1_counterexample :
    raisedKind (stapleBothFail.aclose ()).1 = some .ClosedStreamError ∧
    raisedKind (stapleBothFail.aclose ()).1 ≠ some .BrokenStreamError := by
  constructor <;> decide

/-- C1 (amended): for every `StapledStream` whose send half's `aclose`
raises an error and whose receive half's `aclose` also raises an error,
`StapledStream.aclose` propagates the receive half's error to the caller,
with the send half's error attached to it as implicitly chained context,
after having attempted both halves' closes. -/
theorem C1_both_fail_receive_error_wins {σ : Type} (st : StapledStream σ)
    (s s1 s2 : σ) (e1 e2 : PyErr)
    (hs : st.send_stream.aclose s = (.error e1, s1))
    (hr : st.receive_stream.aclose s1 = (.error e2, s2)) :
    st.aclose s = (.error (e2.chain e1), s2, st) := by
  simp [StapledStream.aclose, hs, hr]

/-- C1 witness: the amended statement evaluated on the concrete failing
staple. -/
theorem C1_witness :
    stapleBothFail.aclose () =
      (.error ((PyErr.ofKind .ClosedStreamError).chain
                 (PyErr.ofKind .BrokenStreamError)), (), stapleBothFail) :=
  C1_both_fail_receive_error_wins stapleBothFail () () ()
    (PyErr.ofKind .BrokenStreamError) (PyErr.ofKind .ClosedStreamError) rfl rfl

/-- C2: whatever the two halves' `aclose` coroutines do — return normally or
raise any exception — `StapledStream.aclose` invokes the send half's close
first and then the receive half's close, each exactly once: the log always
gains exactly the two events, in that order. -/
theorem C2_close_both_halves_in_order {σ : Type} (f g : M σ Unit) (s : σ)
    (t : List CloseEvent) :
    ((loggedStaple f g).aclose (s, t)).2.1.2 =
      t ++ [CloseEvent.sendClose, CloseEvent.recvClose] := by
  have hf : ∃ rf sf, f s = (rf, sf) := ⟨(f s).1, (f s).2, rfl⟩
  obtain ⟨rf, sf, hf⟩ := hf
  have hg : ∃ rg sg, g sf = (rg, sg) := ⟨(g sf).1, (g sf).2, rfl⟩
  obtain ⟨rg, sg, hg⟩ := hg
  cases rf <;> cases rg <;>
    simp [StapledStream.aclose, loggedStaple, withLog, hf, hg]

/-- C5: `send_all`, `wait_send_all_might_not_block` and `receive_some` are
extensionally the corresponding method of the delegated-to half: same
return value or exception, same heap effect, and `max_bytes` is passed
through unchanged for arbitrary integers (in particular the composite never
checks that it is positive). -/
theorem C5_delegation_verbatim {σ : Type} (st : StapledStream σ)
    (data : ByteSeq) (max_bytes : Int) (s : σ) :
    st.send_all data s =
      ((st.send_stream.send_all data s).1, (st.send_stream.send_all data s).2, st) ∧
    st.wait_send_all_might_not_block s =
      ((st.send_stream.wait_send_all_might_not_block s).1,
        (st.send_stream.wait_send_all_might_not_block s).2, st) ∧
    st.receive_some max_bytes s =
      ((st.receive_stream.receive_some max_bytes s).1,
        (st.receive_stream.receive_some max_bytes s).2, st) := by
  refine ⟨rfl, rfl, rfl⟩

/-- C4: `send_eof` probes the send half for a `send_eof` operation at call
time: when the probe succeeds it delegates to that operation (and, on a
staple of independently-owned halves, the receive half's state is
untouched, so the receive side remains usable); when the probe fails it
falls back to the send half's `aclose`. -/
theorem C4_send_eof_probe {σ σ1 σ2 : Type} (st : StapledStream σ)
    (f : M σ Unit) (s : σ) (sh : SendStream σ1) (rh : ReceiveStream σ2)
    (g : M σ1 Unit) (a : σ1) (b : σ2) :
    (st.send_stream.send_eof = some f →
      st.send_eof s = ((f s).1, (f s).2, st)) ∧
    (st.send_stream.send_eof = none →
      st.send_eof s = ((st.send_stream.aclose s).1, (st.send_stream.aclose s).2, st)) ∧
    (sh.send_eof = some g →
      ((splitStaple sh rh).send_eof (a, b)).2.1 = ((g a).2, b)) := by
  refine ⟨fun h => ?_, fun h => ?_, fun h => ?_⟩
  · simp [StapledStream.send_eof, h]
  · simp [StapledStream.send_eof, h]
  · simp [StapledStream.send_eof, splitStaple, h, M.onFst]

/-- C4 witness: the probe evaluated concretely in both directions: a send
half exposing `send_eof` and one lacking it. -/
theorem C4_witness :
    (stapleWithEof.send_eof () = (.ok (), (), stapleWithEof) ∧
      stapleBothFail.send_eof () =
        (.error (PyErr.ofKind .BrokenStreamError), (), stapleBothFail)) ∧
    ((splitStaple sendWithEof recvRaisesClosed).send_eof ((), ())).2.1 = ((), ()) := by
  refine ⟨⟨?_, ?_⟩, ?_⟩
  · exact (C4_send_eof_probe stapleWithEof (fun s => (.ok (), s)) ()
      sendRaisesBroken recvRaisesClosed (fun s => (.ok (), s)) () ()).1 rfl
  · exact (C4_send_eof_probe stapleBothFail (fun s => (.ok (), s)) ()
      sendRaisesBroken recvRaisesClosed (fun s => (.ok (), s)) () ()).2.1 rfl
  · exact (C4_send_eof_probe stapleBothFail (fun s => (.ok (), s)) ()
      sendWithEof recvRaisesClosed (fun s => (.ok (), s)) () ()).2.2 rfl

/-- C8: a `StapledStream` consists of exactly its two fields — two streams
determine the composite — and no method of the composite rebinds either
field or any other composite-level state: every method returns the object
unchanged (the halves' heap is the only state that can move). -/
theorem C8_frame {σ : Type} (a b st : StapledStream σ) (data : ByteSeq)
    (max_bytes : Int) (s : σ) :
    (a.send_stream = b.send_stream → a.receive_stream = b.receive_stream → a = b) ∧
    ((st.send_all data s).2.2 = st ∧
      (st.wait_send_all_might_not_block s).2.2 = st ∧
      (st.send_eof s).2.2 = st ∧
      (st.receive_some max_bytes s).2.2 = st ∧
      (st.aclose s).2.2 = st) := by
  refine ⟨fun h1 h2 => ?_, rfl, rfl, ?_, rfl, ?_⟩
  · cases a; cases b; cases h1; cases h2; rfl
  · unfold StapledStream.send_eof
    cases st.send_stream.send_eof <;> simp
  · unfold StapledStream.aclose
    rcases st.send_stream.aclose s with ⟨r1, s1⟩
    rcases st.receive_stream.aclose s1 with ⟨r2, s2⟩
    cases r1 <;> cases r2 <;> simp

/-- C8 witness: the two-fields extensionality applied to a concrete pair of
equal-fielded staples, alongside the frame facts at a concrete call. -/
theorem C8_witness :
    (⟨sendRaisesBroken, recvRaisesClosed⟩ : StapledStream Unit) = stapleBothFail ∧
    (stapleBothFail.aclose ()).2.2 = stapleBothFail :=
  ⟨(C8_frame ⟨sendRaisesBroken, recvRaisesClosed⟩ stapleBothFail stapleBothFail
      [] 0 ()).1 rfl rfl,
    (C8_frame stapleBothFail stapleBothFail stapleBothFail [] 0 ()).2.2.2.2.2⟩

/-- Bumping an outcome's delay commutes with pairing the heap. -/
theorem Outcome.withFst_bump {τ σ : Type} (a : τ) (o : Outcome σ) :
    (o.withFst a).bump = o.bump.withFst a := by
  cases o <;> rfl

/-- Running a body lifted to the second heap component leaves the first
component untouched and otherwise behaves identically. -/
theorem runProg_onSnd {τ σ : Type} (p : Prog σ) (ctx : CancelCtx) (a : τ)
    (b : σ) :
    runProg p.onSnd ctx (a, b) = (runProg p ctx b).withFst a := by
  induction p generalizing b with
  | ret r => rfl
  | sync f rest ih =>
    simpa only [Prog.onSnd, runProg] using ih (f b)
  | checkpointThen rest ih =>
    cases hc : ctx.cancelled with
    | nil =>
      simp only [Prog.onSnd, runProg, hc, ih b, Outcome.withFst_bump]
    | cons i l =>
      simp only [Prog.onSnd, runProg, hc, Outcome.withFst]
  | blockForever =>
    cases hc : ctx.cancelled <;>
      simp only [Prog.onSnd, runProg, hc, Outcome.withFst]

/-- Under a context with at least one cancelled scope, any body finishes,
and with at most one checkpoint's worth of delay. -/
theorem runProg_finishes {σ : Type} (p : Prog σ) (ctx : CancelCtx) (s : σ)
    (h : ctx.cancelled ≠ []) :
    ∃ r s1 n, runProg p ctx s = .finished r s1 n ∧ n ≤ 1 := by
  induction p generalizing s with
  | ret r => exact ⟨r, s, 0, rfl, by omega⟩
  | sync f rest ih => simpa only [runProg] using ih (f s)
  | checkpointThen rest ih =>
    cases hc : ctx.cancelled with
    | nil => exact absurd hc h
    | cons i l =>
      exact ⟨.error (PyErr.ofKind (.Cancelled i)), s, 1,
        by simp only [runProg, hc], le_refl 1⟩
  | blockForever =>
    cases hc : ctx.cancelled with
    | nil => exact absurd hc h
    | cons i l =>
      exact ⟨.error (PyErr.ofKind (.Cancelled i)), s, 1,
        by simp only [runProg, hc], le_refl 1⟩

/-- A well-formed body can only raise a `Cancelled` exception on behalf of
the outermost cancelled scope of the context it ran under: that is the
scope the scheduler delivers for. -/
theorem runProg_cancelled_head {σ : Type} (p : Prog σ) (ctx : CancelCtx)
    (hwf : p.WF) :
    ∀ (s s1 : σ) (e : PyErr) (n j : Nat),
      runProg p ctx s = .finished (.error e) s1 n → e.kind = .Cancelled j →
      ctx.cancelled.head? = some j := by
  induction p with
  | ret r =>
    intro s s1 e n j hrun hk
    cases r with
    | ok u => simp only [runProg, Outcome.finished.injEq] at hrun
              exact absurd hrun.1 (by simp)
    | error e0 =>
      simp only [runProg, Outcome.finished.injEq, Except.error.injEq] at hrun
      exact absurd (hrun.1 ▸ hk) (hwf j)
  | sync f rest ih =>
    intro s s1 e n j hrun hk
    exact ih hwf (f s) s1 e n j hrun hk
  | checkpointThen rest ih =>
    intro s s1 e n j hrun hk
    cases hc : ctx.cancelled with
    | nil =>
      rw [runProg, hc] at hrun
      rcases ho : runProg rest ctx s with ⟨r0, s0, n0⟩ | _
      · rw [ho] at hrun
        simp only [Outcome.bump, Outcome.finished.injEq] at hrun
        rw [← hc]
        exact ih hwf s s0 e n0 j (by rw [ho, hrun.1, hrun.2.1]) hk
      · rw [ho] at hrun
        exact absurd hrun (by simp [Outcome.bump])
    | cons i l =>
      rw [runProg, hc] at hrun
      simp only [Outcome.finished.injEq, Except.error.injEq] at hrun
      have : e.kind = .Cancelled i := by rw [← hrun.1]; rfl
      rw [hk] at this
      cases this
      simp [hc]
  | blockForever =>
    intro s s1 e n j hrun hk
    cases hc : ctx.cancelled with
    | nil =>
      rw [runProg, hc] at hrun
      exact absurd hrun (by simp)
    | cons i l =>
      rw [runProg, hc] at hrun
      simp only [Outcome.finished.injEq, Except.error.injEq] at hrun
      have : e.kind = .Cancelled i := by rw [← hrun.1]; rfl
      rw [hk] at this
      cases this
      simp [hc]

/-- `aclose_forcefully` finishes with the heap and delay of the underlying
run of `aclose` under the inner, already-cancelled scope. -/
theorem aclose_forcefully_finishes {σ : Type} (p : Prog σ) (ctx : CancelCtx)
    (s : σ) (r : Except PyErr Unit) (s1 : σ) (n : Nat)
    (h : runProg p ⟨ctx.cancelled ++ [ctx.nextId], ctx.nextId + 1⟩ s =
      .finished r s1 n) :
    ∃ r2, aclose_forcefully p ctx s = .finished r2 s1 n := by
  simp only [aclose_forcefully]
  rw [h]
  cases r with
  | ok u => exact ⟨.ok u, rfl⟩
  | error e =>
    dsimp only
    split
    · exact ⟨.ok (), rfl⟩
    · exact ⟨.error e, rfl⟩

/-- If `aclose_forcefully` propagates an exception, that exception came out
of the run of `aclose` under the inner scope and was not a `Cancelled`
delivered for that inner scope. -/
theorem aclose_forcefully_error {σ : Type} (p : Prog σ) (ctx : CancelCtx)
    (s : σ) (e : PyErr) (s1 : σ) (n : Nat)
    (h : aclose_forcefully p ctx s = .finished (.error e) s1 n) :
    runProg p ⟨ctx.cancelled ++ [ctx.nextId], ctx.nextId + 1⟩ s =
      .finished (.error e) s1 n ∧ e.kind ≠ .Cancelled ctx.nextId := by
  simp only [aclose_forcefully] at h
  rcases ho : runProg p ⟨ctx.cancelled ++ [ctx.nextId], ctx.nextId + 1⟩ s
    with ⟨r0, s0, n0⟩ | _
  · rw [ho] at h
    cases r0 with
    | ok u => simp only [Outcome.finished.injEq] at h
              exact absurd h.1 (by simp)
    | error e0 =>
      dsimp only at h
      by_cases hk : e0.kind = .Cancelled ctx.nextId
      · rw [if_pos hk] at h
        simp only [Outcome.finished.injEq] at h
        exact absurd h.1 (by simp)
      · rw [if_neg hk] at h
        simp only [Outcome.finished.injEq, Except.error.injEq] at h
        refine ⟨?_, ?_⟩
        · rw [h.1, h.2.1, h.2.2]
        · rw [← h.1]; exact hk
  · rw [ho] at h
    exact absurd h (by simp)

/-- C3: `aclose_forcefully` opens a fresh cancel scope, marks it cancelled
before any suspension, and invokes the resource's `aclose` exactly once
inside it, doing nothing else to the resource.  First conjunct: however the
wrapped `aclose` behaves, a call counter placed on it advances by exactly
one, and the whole call finishes.  Second conjunct: the very first
suspension point inside the wrapped `aclose` already observes the scope as
cancelled — the delivered cancellation belongs to the fresh scope and is
absorbed, so nothing after that first checkpoint ever runs. -/
theorem C3_forceful_close_shape :
    (∀ (σ : Type) (p : Prog σ) (ctx : CancelCtx) (k : Nat) (s : σ),
      ∃ r s1 n, aclose_forcefully (countedCall p) ctx (k, s) =
          .finished r s1 n ∧ s1.1 = k + 1 ∧ n ≤ 1) ∧
    (∀ (σ : Type) (rest : Prog σ) (ctx : CancelCtx) (s : σ),
      ctx.cancelled = [] →
      aclose_forcefully (.checkpointThen rest) ctx s = .finished (.ok ()) s 1) := by
  constructor
  · intro σ p ctx k s
    have hne : (CancelCtx.mk (ctx.cancelled ++ [ctx.nextId]) (ctx.nextId + 1)).cancelled ≠ [] := by
      simp
    obtain ⟨r, s1, n, hrun, hn⟩ :=
      runProg_finishes p ⟨ctx.cancelled ++ [ctx.nextId], ctx.nextId + 1⟩ s hne
    have hstep : runProg (countedCall p)
        ⟨ctx.cancelled ++ [ctx.nextId], ctx.nextId + 1⟩ (k, s) =
        .finished r (k + 1, s1) n := by
      simp only [countedCall, runProg]
      rw [runProg_onSnd p _ (k + 1) s, hrun]
      rfl
    obtain ⟨r2, h2⟩ := aclose_forcefully_finishes (countedCall p) ctx (k, s)
      r (k + 1, s1) n hstep
    exact ⟨r2, (k + 1, s1), n, h2, rfl, hn⟩
  · intro σ rest ctx s h
    simp [aclose_forcefully, runProg, h, PyErr.ofKind]

/-- C3 witness: the counter instrumentation and the first-checkpoint probe
evaluated on concrete programs and an empty outer context. -/
theorem C3_witness :
    (∃ r s1 n, aclose_forcefully (countedCall (.ret (.ok ()) : Prog Unit))
        ⟨[], 0⟩ (5, ()) = .finished r s1 n ∧ s1.1 = 5 + 1 ∧ n ≤ 1) ∧
    aclose_forcefully (.checkpointThen (.ret (.ok ()) : Prog Unit)) ⟨[], 0⟩ () =
      .finished (.ok ()) () 1 :=
  ⟨C3_forceful_close_shape.1 Unit (.ret (.ok ())) ⟨[], 0⟩ 5 (),
    C3_forceful_close_shape.2 Unit (.ret (.ok ())) ⟨[], 0⟩ () rfl⟩

/-- C6: `aclose_forcefully` raises nothing on behalf of the wrapped close
except a cancellation signal from elsewhere: (i) under no outer
cancellation, no `Cancelled` ever escapes — the cancellation generated in
its own scope is absorbed; (ii) any `Cancelled` that does escape was
delivered for an outer, already-cancelled scope; (iii) an error the close
raises before any cancellation point is reached propagates unchanged. -/
theorem C6_forceful_close_errors :
    (∀ (σ : Type) (p : Prog σ) (ctx : CancelCtx) (s : σ),
      p.WF → ctx.cancelled = [] →
      ∀ (e : PyErr) (s1 : σ) (n j : Nat),
        aclose_forcefully p ctx s = .finished (.error e) s1 n →
        e.kind ≠ .Cancelled j) ∧
    (∀ (σ : Type) (p : Prog σ) (ctx : CancelCtx) (s : σ),
      p.WF →
      ∀ (e : PyErr) (s1 : σ) (n j : Nat),
        aclose_forcefully p ctx s = .finished (.error e) s1 n →
        e.kind = .Cancelled j → j ∈ ctx.cancelled) ∧
    (∀ (σ : Type) (f : σ → σ) (e : PyErr) (ctx : CancelCtx) (s : σ),
      (∀ j, e.kind ≠ .Cancelled j) →
      aclose_forcefully (.sync f (.ret (.error e))) ctx s =
        .finished (.error e) (f s) 0) := by
  refine ⟨?_, ?_, ?_⟩
  · intro σ p ctx s hwf hc e s1 n j hfin hk
    obtain ⟨hrun, hfresh⟩ := aclose_forcefully_error p ctx s e s1 n hfin
    have hhead := runProg_cancelled_head p
      ⟨ctx.cancelled ++ [ctx.nextId], ctx.nextId + 1⟩ hwf s s1 e n j hrun hk
    simp only [hc, List.nil_append, List.head?_cons, Option.some.injEq] at hhead
    rw [hk, hhead] at hfresh
    exact hfresh rfl
  · intro σ p ctx s hwf e s1 n j hfin hk
    obtain ⟨hrun, hfresh⟩ := aclose_forcefully_error p ctx s e s1 n hfin
    have hhead := runProg_cancelled_head p
      ⟨ctx.cancelled ++ [ctx.nextId], ctx.nextId + 1⟩ hwf s s1 e n j hrun hk
    cases hc : ctx.cancelled with
    | nil =>
      rw [hc] at hhead
      simp only [List.nil_append, List.head?_cons, Option.some.injEq] at hhead
      rw [hk, hhead] at hfresh
      exact absurd rfl hfresh
    | cons a l =>
      rw [hc] at hhead
      simp only [List.cons_append, List.head?_cons, Option.some.injEq] at hhead
      rw [hhead]
      exact List.mem_cons_self j l
  · intro σ f e ctx s hnc
    simp only [aclose_forcefully, runProg]
    rw [if_neg (hnc ctx.nextId)]

/-- C6 witness: the three conjuncts evaluated concretely — a close raising
`BrokenStreamError` with no outer cancellation, a cancellation escaping
from an already-cancelled outer scope with id 7, and the unchanged
propagation of an early `BrokenStreamError`. -/
theorem C6_witness :
    (PyErr.ofKind ExcKind.BrokenStreamError).kind ≠ .Cancelled 3 ∧
    (7 : Nat) ∈ ([7] : List Nat) ∧
    aclose_forcefully (.sync id (.ret (.error (PyErr.ofKind .BrokenStreamError))) : Prog Unit)
        ⟨[], 0⟩ () =
      .finished (.error (PyErr.ofKind .BrokenStreamError)) (id ()) 0 := by
  refine ⟨?_, ?_, ?_⟩
  · exact C6_forceful_close_errors.1 Unit
      (.sync id (.ret (.error (PyErr.ofKind .BrokenStreamError)))) ⟨[], 0⟩ ()
      (fun j h => by cases h) rfl (PyErr.ofKind .BrokenStreamError) () 0 3
      (C6_forceful_close_errors.2.2 Unit id (PyErr.ofKind .BrokenStreamError)
        ⟨[], 0⟩ () (fun j h => by cases h))
  · exact C6_forceful_close_errors.2.1 Unit (.checkpointThen (.ret (.ok ())))
      ⟨[7], 8⟩ () trivial (PyErr.ofKind (.Cancelled 7)) () 1 7 rfl rfl
  · exact C6_forceful_close_errors.2.2 Unit id (PyErr.ofKind .BrokenStreamError)
      ⟨[], 0⟩ () (fun j h => by cases h)

/-- C7: for every resource whose `aclose` honors the cancellation-safety
contract, `aclose_forcefully` finishes — even when the close would block
forever absent cancellation — within at most one checkpoint's worth of
delay, and the resource is released by the time it returns. -/
theorem C7_forceful_close_bounded {σ : Type} (p : Prog σ)
    (released : σ → Bool) (ctx : CancelCtx) (s : σ)
    (h : HonorsCancellation p released) :
    ∃ r s1 n, aclose_forcefully p ctx s = .finished r s1 n ∧ n ≤ 1 ∧
      released s1 = true := by
  have hne : (CancelCtx.mk (ctx.cancelled ++ [ctx.nextId]) (ctx.nextId + 1)).cancelled ≠ [] := by
    simp
  obtain ⟨r, s1, n, hrun, hn⟩ :=
    runProg_finishes p ⟨ctx.cancelled ++ [ctx.nextId], ctx.nextId + 1⟩ s hne
  obtain ⟨r2, h2⟩ := aclose_forcefully_finishes p ctx s r s1 n hrun
  exact ⟨r2, s1, n, h2, hn, h _ s r s1 n hne hrun⟩

/-- C7 witness: a resource that releases synchronously and then blocks
forever waiting on a never-met condition; `aclose_forcefully` still
finishes within one checkpoint with the released flag set — although a
plain run of the same close under no cancellation blocks forever. -/
theorem C7_witness :
    runProg releaseThenBlock ⟨[], 0⟩ false = .blocked ∧
    ∃ r s1 n, aclose_forcefully releaseThenBlock ⟨[], 0⟩ false =
        .finished r s1 n ∧ n ≤ 1 ∧ (fun b => b) s1 = true := by
  refine ⟨rfl, ?_⟩
  refine C7_forceful_close_bounded releaseThenBlock (fun b => b) ⟨[], 0⟩ false ?_
  intro ctx s r s1 n hne hrun
  cases hc : ctx.cancelled with
  | nil => exact absurd hc hne
  | cons i l =>
    simp only [releaseThenBlock, runProg, hc, Outcome.finished.injEq] at hrun
    exact hrun.2.1.symm

/-- C9: `BrokenStreamError`, `ClosedStreamError` and `ClosedListenerError`
are each declared directly on `Exception`, none of the three is a subclass
of another, and consequently an `except` handler for one of them never
catches either of the other two. -/
theorem C9_exception_taxonomy :
    (pyBase .BrokenStreamError = some .Exception ∧
      pyBase .ClosedStreamError = some .Exception ∧
      pyBase .ClosedListenerError = some .Exception) ∧
    (issubclass .BrokenStreamError .ClosedStreamError = false ∧
      issubclass .ClosedStreamError .BrokenStreamError = false ∧
      issubclass .BrokenStreamError .ClosedListenerError = false ∧
      issubclass .ClosedListenerError .BrokenStreamError = false ∧
      issubclass .ClosedStreamError .ClosedListenerError = false ∧
      issubclass .ClosedListenerError .ClosedStreamError = false) ∧
    (catches .BrokenStreamError .ClosedStreamError = false ∧
      catches .BrokenStreamError .ClosedListenerError = false ∧
      catches .ClosedStreamError .BrokenStreamError = false ∧
      catches .ClosedStreamError .ClosedListenerError = false ∧
      catches .ClosedListenerError .BrokenStreamError = false ∧
      catches .ClosedListenerError .ClosedStreamError = false) ∧
    (catches .Exception .BrokenStreamError = true ∧
      catches .Exception .ClosedStreamError = true ∧
      catches .Exception .ClosedListenerError = true) := by
  decide

/-- C10: `StapledStream` is declared with `cmp=False, hash=False`, so attrs
generates no structural `__eq__`/`__hash__`: equality is by object
identity — two distinct instances built from the same two halves compare
unequal — and the hash is the identity-based one. -/
theorem C10_identity_semantics (a b : PyObject (Nat × Nat)) (fh ih : Nat)
    (hne : a.objId ≠ b.objId) (_hsame : a.value = b.value) :
    (stapledStreamEq a b = true ↔ a.objId = b.objId) ∧
    stapledStreamEq a b = false ∧
    stapledStreamHash fh ih = ih := by
  refine ⟨?_, ?_, rfl⟩
  · simp [stapledStreamEq, attrsEq, stapledCmpFlag]
  · simp [stapledStreamEq, attrsEq, stapledCmpFlag, hne]

/-- C10 witness: two distinct instances over the same pair of halves. -/
theorem C10_witness :
    (stapledStreamEq ⟨1, (10, 20)⟩ ⟨2, (10, 20)⟩ = true ↔ (1 : Nat) = 2) ∧
    stapledStreamEq ⟨1, (10, 20)⟩ ⟨2, (10, 20)⟩ = false ∧
    stapledStreamHash 99 42 = 42 :=
  C10_identity_semantics ⟨1, (10, 20)⟩ ⟨2, (10, 20)⟩ 99 42 (by decide) rfl

end Trio
